import Mathlib

/-!
Verification of the `KeyPress` input-capture state from `smile/keyboard.py`.

Embedding conventions:
* Python strings (key symbols such as `'K'`) are lists of characters
  (`PyStr := List Char`); Python's `str.upper()` is `pyUpper`, mapping
  `Char.toUpper` over the characters (exact for the ASCII key names used
  by the keyboard layer).
* Times are exact rationals (`ℚ`).
* `val` applied to a plain (non-`Ref`) value is the identity, so lazily
  referenced parameters appear here already resolved to their values.
* The fallible reaction-time computation `event_time['time'] - self.base_time`
  raises a `TypeError` in Python when `base_time` is `None`; the embedding
  returns `none` (`Option`) in that case.
* The base `State` class, the experiment's event dispatcher
  (`exp.app.add_callback` / `remove_callback`) and the scheduler are not part
  of the repository fragment; they are modelled from the spec where marked.
-/

namespace Smile

/-- A Python string, as the sequence of its characters. -/
abbrev PyStr := List Char

/-- Python's `str.upper()` for the ASCII key symbols used by the keyboard
layer: uppercase every character. -/
def pyUpper (s : PyStr) : PyStr := s.map Char.toUpper

/-- Is `c` an ASCII lowercase letter (`a`–`z`)?  Stated over `Char.toNat`. -/
def isLowerAscii (c : Char) : Bool := decide (97 ≤ c.toNat ∧ c.toNat ≤ 122)

/-- Python truthiness of an optional number: `None` and `0` are falsy,
any other number is truthy. -/
def pyTruthy : Option ℚ → Bool
  | none => false
  | some q => decide (q ≠ 0)

/-- Modelled from the spec: the event dispatcher is "a mapping from
event-kind string to an ordered set of callback registrations"; a callback
is identified by the id of the state that owns it. -/
abbrev Dispatcher := List (String × Nat)

/-- Modelled from the spec: `add_callback(kind, fn)` appends a registration
for the callback to the dispatcher. -/
def add_callback (d : Dispatcher) (kind : String) (cb : Nat) : Dispatcher :=
  d ++ [(kind, cb)]

/-- Modelled from the spec: `remove_callback(kind, fn)` removes the
callback's registration(s) for that event kind ("each registration ... must
be removed on that state's exit"). -/
def remove_callback (d : Dispatcher) (kind : String) (cb : Nat) : Dispatcher :=
  d.filter (fun r => r ≠ (kind, cb))

/-- The event-time payload delivered with a key event; the code reads its
`'time'` entry (`event_time['time']`). -/
structure EventTime where
  time : ℚ
deriving DecidableEq, Repr

/-- The `KeyPress` state of `smile/keyboard.py`, together with the fields of
its base `State` that the methods under verification touch (`state_time`,
`active`/`finished`, and an id `sid` identifying this state's
`_key_callback` in the dispatcher); the base-class fields are modelled from
the spec (§3, §4.1). -/
structure KeyPress where
  keys : List (Option PyStr)
  correct_resp : List (Option PyStr)
  base_time_src : Option ℚ
  base_time : Option ℚ
  wait_duration : Option ℚ
  wait_until : Option ℚ
  pressed : PyStr
  press_time : Option EventTime
  correct : Bool
  rt : Option ℚ
  waiting : Bool
  state_time : ℚ
  active : Bool
  finished : Bool
  sid : Nat
deriving DecidableEq, Repr

/-- A `keys` / `correct_resp` constructor argument: either a Python list or
a non-list scalar (a string, or `None`). -/
inductive KeyArg where
  | pylist (ks : List (Option PyStr))
  | scalar (k : Option PyStr)
deriving DecidableEq, Repr

/-- `if not isinstance(x, list): x = [x]` — a non-list argument is wrapped
into a one-element list. -/
def normalizeKeyArg : KeyArg → List (Option PyStr)
  | .pylist ks => ks
  | .scalar k => [k]

/-- `KeyPress.__init__` (keyboard.py lines 67–105): normalise `keys` and
`correct_resp`, record `base_time_src`, map `duration == -1` to an
indefinite wait, and set the response fields to their defaults. -/
def KeyPress.init (keys correct_resp : KeyArg) (base_time : Option ℚ)
    (until_arg : Option ℚ) (duration : ℚ) (sid : Nat) : KeyPress :=
  { keys := normalizeKeyArg keys
    correct_resp := normalizeKeyArg correct_resp
    base_time_src := base_time
    base_time := none
    wait_duration := if duration = -1 then none else some duration
    wait_until := until_arg
    pressed := []
    press_time := none
    correct := false
    rt := none
    waiting := false
    state_time := 0
    active := false
    finished := false
    sid := sid }

/-- `KeyPress._enter` (lines 107–113): reset the per-activation response
fields to their no-response defaults. -/
def KeyPress.enterHook (s : KeyPress) : KeyPress :=
  { s with pressed := [], press_time := none, correct := false, rt := none
           base_time := none }

/-- Modelled from the spec (§4.1): the base `State.enter` marks the state
active, records its scheduled start (`state_time`), and runs the `_enter`
hook. -/
def KeyPress.enter (s : KeyPress) (t : ℚ) : KeyPress :=
  KeyPress.enterHook { s with active := true, finished := false, state_time := t }

/-- `KeyPress._leave` (lines 160–164): remove the keyboard callback from the
dispatcher and clear `waiting`. -/
def KeyPress.leaveHook (s : KeyPress) (d : Dispatcher) : KeyPress × Dispatcher :=
  ({ s with waiting := false }, remove_callback d "KEY_DOWN" s.sid)

/-- Modelled from the spec (§4.1): `State.leave` moves an active state to
Finished, running the `_leave` hook; a second invocation on an already
finished state is a no-op ("exit must be idempotent-safe"). -/
def KeyPress.leave (s : KeyPress) (d : Dispatcher) : KeyPress × Dispatcher :=
  if s.active then
    let p := KeyPress.leaveHook s d
    ({ p.1 with active := false, finished := true }, p.2)
  else (s, d)

/-- `KeyPress._key_callback` (lines 115–141): on a key event, uppercase the
key symbol; if the accepted set contains `None` or the symbol, record the
press, its event time, the reaction time against `base_time`, set `correct`
when the symbol is in `correct_resp`, and `leave()`.  When `base_time` is
`None` the subtraction raises (`none`). -/
def KeyPress.key_callback (s : KeyPress) (d : Dispatcher) (sym : PyStr)
    (event_time : EventTime) : Option (KeyPress × Dispatcher) :=
  let keys := s.keys
  let correct_resp := s.correct_resp
  let sym_str := pyUpper sym
  if none ∈ keys ∨ some sym_str ∈ keys then
    let s1 := { s with pressed := sym_str, press_time := some event_time }
    match s1.base_time with
    | none => none
    | some bt =>
      let s2 := { s1 with rt := some (event_time.time - bt) }
      let s3 := if some s2.pressed ∈ correct_resp then { s2 with correct := true }
                else s2
      some (KeyPress.leave s3 d)
  else some (s, d)

/-- The base time actually used by the poll tick: `base_time` when already
set, otherwise `val(base_time_src)`, otherwise `state_time` (lines
148–152). -/
def KeyPress.effBase (s : KeyPress) : ℚ :=
  match s.base_time with
  | some b => b
  | none =>
    match s.base_time_src with
    | some b => b
    | none => s.state_time

/-- Lines 148–152 of `KeyPress._callback`: if `base_time` is `None`, fill it
from `base_time_src`, defaulting to `state_time`. -/
def KeyPress.fillBase (s : KeyPress) : KeyPress :=
  if s.base_time = none then
    match s.base_time_src with
    | some b => { s with base_time := some b }
    | none => { s with base_time := some s.state_time }
  else s

/-- Lines 144–147 of `KeyPress._callback`: if not yet waiting, register the
key callback with the dispatcher and set `waiting`. -/
def KeyPress.subscribeStep (s : KeyPress) (d : Dispatcher) : KeyPress × Dispatcher :=
  if s.waiting = false then
    ({ s with waiting := true }, add_callback d "KEY_DOWN" s.sid)
  else (s, d)

/-- Lines 153–158 of `KeyPress._callback`: force `leave()` when a
`wait_duration` is set and `now ≥ base_time + wait_duration`, else when
`val(wait_until)` is truthy. -/
def KeyPress.timeoutStep (s : KeyPress) (d : Dispatcher) (now : ℚ) :
    KeyPress × Dispatcher :=
  match s.wait_duration with
  | some wd =>
    if s.effBase + wd ≤ now then KeyPress.leave s d
    else if pyTruthy s.wait_until then KeyPress.leave s d
    else (s, d)
  | none =>
    if pyTruthy s.wait_until then KeyPress.leave s d
    else (s, d)

/-- `KeyPress._callback` (lines 143–158), the per-tick poll: subscribe if
needed, fill `base_time`, then evaluate the time-based exit conditions. -/
def KeyPress.callbackTick (s : KeyPress) (d : Dispatcher) (now : ℚ) :
    KeyPress × Dispatcher :=
  let p := KeyPress.subscribeStep s d
  KeyPress.timeoutStep (KeyPress.fillBase p.1) p.2 now

/-- An observable event of one activation: a scheduler poll tick at clock
time `now`, or a key event carrying the pressed symbol and its event time. -/
inductive Ev where
  | tick (now : ℚ)
  | key (sym : PyStr) (t : EventTime)
deriving DecidableEq, Repr

/-- Modelled from the spec (§5): the single-threaded run delivers poll
ticks to the state while it is active, and key events to its callback while
the callback is registered with the dispatcher; events arrive between
ticks. -/
def step (p : KeyPress × Dispatcher) : Ev → Option (KeyPress × Dispatcher)
  | .tick now =>
    if p.1.active then some (KeyPress.callbackTick p.1 p.2 now) else some p
  | .key sym t =>
    if ("KEY_DOWN", p.1.sid) ∈ p.2 then KeyPress.key_callback p.1 p.2 sym t
    else some p

/-- Run a sequence of events from a configuration; `none` as soon as a
callback raises. -/
def run (p : KeyPress × Dispatcher) : List Ev → Option (KeyPress × Dispatcher)
  | [] => some p
  | e :: es => (step p e).bind fun q => run q es
/-- The state handed to the timeout comparison of a poll tick: the result of
the subscription block followed by the `base_time` fill. -/
def KeyPress.preTimeout (s : KeyPress) (d : Dispatcher) : KeyPress :=
  KeyPress.fillBase (KeyPress.subscribeStep s d).1

/-- Invariant for the no-qualifying-event runs of claim C2: response fields
at their defaults, fixed accepted set `K`, fixed duration bound `wd`
anchored at `bse`, and the state either still active or already finished. -/
def c2Inv (K : List (Option PyStr)) (bse wd : ℚ) (p : KeyPress × Dispatcher) : Prop :=
  p.1.pressed = [] ∧ p.1.press_time = none ∧ p.1.correct = false ∧ p.1.rt = none ∧
  p.1.keys = K ∧ p.1.wait_duration = some wd ∧ KeyPress.effBase p.1 = bse ∧
  (p.1.active = true ∨ p.1.finished = true)

/-- Invariant for claim C5: whenever the key callback is registered with the
dispatcher, `base_time` has already been filled in. -/
def c5Inv (p : KeyPress × Dispatcher) : Prop :=
  ("KEY_DOWN", p.1.sid) ∈ p.2 → p.1.base_time ≠ none

/-- The spec's scenario state: accepted keys `J`/`K`, correct response `K`,
entered at time 0, with `base_time` filled to 0 as the first poll tick
does. -/
def jkSample : KeyPress :=
  { KeyPress.enter
      (KeyPress.init (.pylist [some ['J'], some ['K']]) (.scalar (some ['K']))
        none none (-1) 0) 0
    with base_time := some 0 }

/-- A state entered at time 10 with an explicit `base_time` source of 5 and a
duration bound of 3: its poll-tick deadline is `5 + 3`, not `10 + 3`. -/
def deadlineSample : KeyPress :=
  KeyPress.enter (KeyPress.init (.scalar none) (.scalar none) (some 5) none 3 0) 10

theorem char_toNat_ofNat_of_lt {n : Nat} (h : n < 55296) : (Char.ofNat n).toNat = n := by
  rw [Char.ofNat, dif_pos (Or.inl h)]
  rfl

theorem char_toUpper_eq (c : Char) :
    Char.toUpper c = if 97 ≤ c.toNat ∧ c.toNat ≤ 122 then Char.ofNat (c.toNat - 32) else c := rfl

theorem isLowerAscii_toUpper (c : Char) : isLowerAscii (Char.toUpper c) = false := by
  rw [char_toUpper_eq]
  by_cases h : 97 ≤ c.toNat ∧ c.toNat ≤ 122
  · rw [if_pos h]
    have hlt : c.toNat - 32 < 55296 := by omega
    simp only [isLowerAscii, char_toNat_ofNat_of_lt hlt, decide_eq_false_iff_not]
    omega
  · rw [if_neg h]
    simp only [isLowerAscii, decide_eq_false_iff_not]
    exact h

theorem toUpper_toUpper (c : Char) : Char.toUpper (Char.toUpper c) = Char.toUpper c := by
  conv_lhs => rw [char_toUpper_eq (Char.toUpper c)]
  rw [if_neg]
  have := isLowerAscii_toUpper c
  simp only [isLowerAscii, decide_eq_false_iff_not] at this
  exact this

theorem pyUpper_pyUpper (s : PyStr) : pyUpper (pyUpper s) = pyUpper s := by
  simp only [pyUpper, List.map_map]
  exact List.map_congr_left (fun c _ => toUpper_toUpper c)

theorem isLowerAscii_mem_pyUpper {c : Char} {s : PyStr} (h : c ∈ pyUpper s) :
    isLowerAscii c = false := by
  simp only [pyUpper, List.mem_map] at h
  obtain ⟨a, -, rfl⟩ := h
  exact isLowerAscii_toUpper a

theorem pyUpper_ne_of_lower {sym ks : PyStr} (h : ∃ c ∈ ks, isLowerAscii c = true) :
    pyUpper sym ≠ ks := by
  intro heq
  obtain ⟨c, hc, hl⟩ := h
  rw [← heq] at hc
  rw [isLowerAscii_mem_pyUpper hc] at hl
  exact Bool.false_ne_true hl

theorem leave_pressed (s : KeyPress) (d : Dispatcher) :
    (KeyPress.leave s d).1.pressed = s.pressed := by
  unfold KeyPress.leave KeyPress.leaveHook
  split <;> rfl

theorem leave_press_time (s : KeyPress) (d : Dispatcher) :
    (KeyPress.leave s d).1.press_time = s.press_time := by
  unfold KeyPress.leave KeyPress.leaveHook
  split <;> rfl

theorem leave_correct (s : KeyPress) (d : Dispatcher) :
    (KeyPress.leave s d).1.correct = s.correct := by
  unfold KeyPress.leave KeyPress.leaveHook
  split <;> rfl

theorem leave_rt (s : KeyPress) (d : Dispatcher) :
    (KeyPress.leave s d).1.rt = s.rt := by
  unfold KeyPress.leave KeyPress.leaveHook
  split <;> rfl

theorem leave_sid (s : KeyPress) (d : Dispatcher) :
    (KeyPress.leave s d).1.sid = s.sid := by
  unfold KeyPress.leave KeyPress.leaveHook
  split <;> rfl

theorem leave_base_time (s : KeyPress) (d : Dispatcher) :
    (KeyPress.leave s d).1.base_time = s.base_time := by
  unfold KeyPress.leave KeyPress.leaveHook
  split <;> rfl

theorem leave_keys (s : KeyPress) (d : Dispatcher) :
    (KeyPress.leave s d).1.keys = s.keys := by
  unfold KeyPress.leave KeyPress.leaveHook
  split <;> rfl

theorem leave_wait_duration (s : KeyPress) (d : Dispatcher) :
    (KeyPress.leave s d).1.wait_duration = s.wait_duration := by
  unfold KeyPress.leave KeyPress.leaveHook
  split <;> rfl

theorem leave_effBase (s : KeyPress) (d : Dispatcher) :
    KeyPress.effBase (KeyPress.leave s d).1 = KeyPress.effBase s := by
  unfold KeyPress.leave KeyPress.leaveHook
  split
  · rfl
  · rfl

theorem leave_of_active (s : KeyPress) (d : Dispatcher) (h : s.active = true) :
    KeyPress.leave s d =
      ({ s with waiting := false, active := false, finished := true },
        remove_callback d "KEY_DOWN" s.sid) := by
  unfold KeyPress.leave KeyPress.leaveHook
  rw [if_pos h]

theorem leave_finished_of_active (s : KeyPress) (d : Dispatcher) (h : s.active = true) :
    (KeyPress.leave s d).1.finished = true := by
  rw [leave_of_active s d h]

theorem not_mem_remove_callback (d : Dispatcher) (kind : String) (cb : Nat) :
    (kind, cb) ∉ remove_callback d kind cb := by
  intro h
  rw [remove_callback, List.mem_filter] at h
  simp at h

theorem subscribeStep_fst (s : KeyPress) (d : Dispatcher) :
    (KeyPress.subscribeStep s d).1 =
      if s.waiting = false then { s with waiting := true } else s := by
  unfold KeyPress.subscribeStep
  split <;> rfl

theorem subscribeStep_active (s : KeyPress) (d : Dispatcher) :
    (KeyPress.subscribeStep s d).1.active = s.active := by
  rw [subscribeStep_fst]; split <;> rfl

theorem subscribeStep_finished (s : KeyPress) (d : Dispatcher) :
    (KeyPress.subscribeStep s d).1.finished = s.finished := by
  rw [subscribeStep_fst]; split <;> rfl

theorem subscribeStep_wait_duration (s : KeyPress) (d : Dispatcher) :
    (KeyPress.subscribeStep s d).1.wait_duration = s.wait_duration := by
  rw [subscribeStep_fst]; split <;> rfl

theorem subscribeStep_wait_until (s : KeyPress) (d : Dispatcher) :
    (KeyPress.subscribeStep s d).1.wait_until = s.wait_until := by
  rw [subscribeStep_fst]; split <;> rfl

theorem subscribeStep_pressed (s : KeyPress) (d : Dispatcher) :
    (KeyPress.subscribeStep s d).1.pressed = s.pressed := by
  rw [subscribeStep_fst]; split <;> rfl

theorem subscribeStep_press_time (s : KeyPress) (d : Dispatcher) :
    (KeyPress.subscribeStep s d).1.press_time = s.press_time := by
  rw [subscribeStep_fst]; split <;> rfl

theorem subscribeStep_correct (s : KeyPress) (d : Dispatcher) :
    (KeyPress.subscribeStep s d).1.correct = s.correct := by
  rw [subscribeStep_fst]; split <;> rfl

theorem subscribeStep_rt (s : KeyPress) (d : Dispatcher) :
    (KeyPress.subscribeStep s d).1.rt = s.rt := by
  rw [subscribeStep_fst]; split <;> rfl

theorem subscribeStep_keys (s : KeyPress) (d : Dispatcher) :
    (KeyPress.subscribeStep s d).1.keys = s.keys := by
  rw [subscribeStep_fst]; split <;> rfl

theorem subscribeStep_effBase (s : KeyPress) (d : Dispatcher) :
    KeyPress.effBase (KeyPress.subscribeStep s d).1 = KeyPress.effBase s := by
  rw [subscribeStep_fst]
  split
  · rfl
  · rfl

theorem fillBase_eq (s : KeyPress) :
    KeyPress.fillBase s = { s with base_time := some (KeyPress.effBase s) } := by
  unfold KeyPress.fillBase KeyPress.effBase
  cases hb : s.base_time with
  | none =>
    rw [if_pos rfl]
    cases hs : s.base_time_src with
    | none => rfl
    | some b => rfl
  | some b =>
    rw [if_neg (by simp)]
    conv_rhs => rw [← hb]

theorem fillBase_active (s : KeyPress) : (KeyPress.fillBase s).active = s.active := by
  rw [fillBase_eq]

theorem fillBase_finished (s : KeyPress) : (KeyPress.fillBase s).finished = s.finished := by
  rw [fillBase_eq]

theorem fillBase_wait_duration (s : KeyPress) :
    (KeyPress.fillBase s).wait_duration = s.wait_duration := by
  rw [fillBase_eq]

theorem fillBase_wait_until (s : KeyPress) :
    (KeyPress.fillBase s).wait_until = s.wait_until := by
  rw [fillBase_eq]

theorem fillBase_pressed (s : KeyPress) : (KeyPress.fillBase s).pressed = s.pressed := by
  rw [fillBase_eq]

theorem fillBase_press_time (s : KeyPress) :
    (KeyPress.fillBase s).press_time = s.press_time := by
  rw [fillBase_eq]

theorem fillBase_correct (s : KeyPress) : (KeyPress.fillBase s).correct = s.correct := by
  rw [fillBase_eq]

theorem fillBase_rt (s : KeyPress) : (KeyPress.fillBase s).rt = s.rt := by
  rw [fillBase_eq]

theorem fillBase_keys (s : KeyPress) : (KeyPress.fillBase s).keys = s.keys := by
  rw [fillBase_eq]

theorem fillBase_effBase (s : KeyPress) :
    KeyPress.effBase (KeyPress.fillBase s) = KeyPress.effBase s := by
  rw [fillBase_eq]
  unfold KeyPress.effBase
  rfl

theorem fillBase_base_time (s : KeyPress) :
    (KeyPress.fillBase s).base_time = some (KeyPress.effBase s) := by
  rw [fillBase_eq]

theorem timeoutStep_or (s : KeyPress) (d : Dispatcher) (now : ℚ) :
    KeyPress.timeoutStep s d now = (s, d) ∨
      KeyPress.timeoutStep s d now = KeyPress.leave s d := by
  unfold KeyPress.timeoutStep
  split
  · split
    · exact Or.inr rfl
    · split
      · exact Or.inr rfl
      · exact Or.inl rfl
  · split
    · exact Or.inr rfl
    · exact Or.inl rfl

theorem timeoutStep_base_time (s : KeyPress) (d : Dispatcher) (now : ℚ) :
    (KeyPress.timeoutStep s d now).1.base_time = s.base_time := by
  rcases timeoutStep_or s d now with h | h
  · rw [h]
  · rw [h]
    exact leave_base_time s d

theorem timeoutStep_finished_iff (s : KeyPress) (d : Dispatcher) (now : ℚ)
    (ha : s.active = true) (hf : s.finished = false) :
    ((KeyPress.timeoutStep s d now).1.finished = true ↔
      ((∃ wd, s.wait_duration = some wd ∧ s.effBase + wd ≤ now) ∨
        pyTruthy s.wait_until = true)) := by
  have hl : (KeyPress.leave s d).1.finished = true := leave_finished_of_active s d ha
  unfold KeyPress.timeoutStep
  cases hwd : s.wait_duration with
  | none =>
    by_cases hu : pyTruthy s.wait_until = true
    · simp [hu, hl]
    · simp [hu, hf]
  | some wd =>
    by_cases hle : s.effBase + wd ≤ now
    · simp [hle, hl]
    · by_cases hu : pyTruthy s.wait_until = true
      · simp [hle, hu, hl]
      · simp [hle, hu, hf]

theorem callbackTick_eq (s : KeyPress) (d : Dispatcher) (now : ℚ) :
    KeyPress.callbackTick s d now =
      KeyPress.timeoutStep (KeyPress.preTimeout s d) (KeyPress.subscribeStep s d).2 now := rfl

theorem preTimeout_fields (s : KeyPress) (d : Dispatcher) :
    (KeyPress.preTimeout s d).pressed = s.pressed ∧
    (KeyPress.preTimeout s d).press_time = s.press_time ∧
    (KeyPress.preTimeout s d).correct = s.correct ∧
    (KeyPress.preTimeout s d).rt = s.rt ∧
    (KeyPress.preTimeout s d).keys = s.keys ∧
    (KeyPress.preTimeout s d).wait_duration = s.wait_duration ∧
    KeyPress.effBase (KeyPress.preTimeout s d) = KeyPress.effBase s ∧
    (KeyPress.preTimeout s d).active = s.active ∧
    (KeyPress.preTimeout s d).finished = s.finished := by
  unfold KeyPress.preTimeout
  exact ⟨(subscribeStep_pressed s d) ▸ fillBase_pressed _,
    (subscribeStep_press_time s d) ▸ fillBase_press_time _,
    (subscribeStep_correct s d) ▸ fillBase_correct _,
    (subscribeStep_rt s d) ▸ fillBase_rt _,
    (subscribeStep_keys s d) ▸ fillBase_keys _,
    (subscribeStep_wait_duration s d) ▸ fillBase_wait_duration _,
    (subscribeStep_effBase s d) ▸ fillBase_effBase _,
    (subscribeStep_active s d) ▸ fillBase_active _,
    (subscribeStep_finished s d) ▸ fillBase_finished _⟩

theorem callbackTick_base_time (s : KeyPress) (d : Dispatcher) (now : ℚ) :
    (KeyPress.callbackTick s d now).1.base_time =
      some (KeyPress.effBase s) := by
  rw [callbackTick_eq, timeoutStep_base_time]
  unfold KeyPress.preTimeout
  rw [fillBase_base_time, subscribeStep_effBase]

theorem key_callback_match (s : KeyPress) (d : Dispatcher) (sym : PyStr) (t : EventTime) (bt : ℚ)
    (hbt : s.base_time = some bt)
    (hm : none ∈ s.keys ∨ some (pyUpper sym) ∈ s.keys) :
    KeyPress.key_callback s d sym t =
      some (KeyPress.leave
        (if some (pyUpper sym) ∈ s.correct_resp then
          { s with pressed := pyUpper sym, press_time := some t,
                   rt := some (t.time - bt), correct := true }
        else
          { s with pressed := pyUpper sym, press_time := some t,
                   rt := some (t.time - bt) }) d) := by
  unfold KeyPress.key_callback
  rw [if_pos hm]
  simp only [hbt]

theorem key_callback_nonmatching (s : KeyPress) (d : Dispatcher) (sym : PyStr) (t : EventTime)
    (hm : ¬ (none ∈ s.keys ∨ some (pyUpper sym) ∈ s.keys)) :
    KeyPress.key_callback s d sym t = some (s, d) := by
  unfold KeyPress.key_callback
  rw [if_neg hm]

theorem key_callback_base_time (s : KeyPress) (d : Dispatcher) (sym : PyStr)
    (t : EventTime) (q : KeyPress × Dispatcher)
    (h : KeyPress.key_callback s d sym t = some q) :
    q.1.base_time = s.base_time := by
  unfold KeyPress.key_callback at h
  by_cases hm : none ∈ s.keys ∨ some (pyUpper sym) ∈ s.keys
  · rw [if_pos hm] at h
    cases hb : s.base_time with
    | none =>
      simp only [hb] at h
      exact absurd h (by simp)
    | some bt =>
      simp only [hb] at h
      rw [Option.some_inj] at h
      subst h
      rw [leave_base_time]
      split <;> rfl
  · rw [if_neg hm] at h
    rw [Option.some_inj] at h
    subst h
    rfl

theorem key_callback_isSome (s : KeyPress) (d : Dispatcher) (sym : PyStr)
    (t : EventTime) (bt : ℚ) (hb : s.base_time = some bt) :
    ∃ q, KeyPress.key_callback s d sym t = some q := by
  unfold KeyPress.key_callback
  by_cases hm : none ∈ s.keys ∨ some (pyUpper sym) ∈ s.keys
  · rw [if_pos hm]
    simp only [hb]
    exact ⟨_, rfl⟩
  · rw [if_neg hm]
    exact ⟨_, rfl⟩

theorem run_append (p : KeyPress × Dispatcher) (xs ys : List Ev) :
    run p (xs ++ ys) = (run p xs).bind (fun q => run q ys) := by
  induction xs generalizing p with
  | nil => simp [run]
  | cons e es ih =>
    simp only [List.cons_append, run]
    cases step p e with
    | none => rfl
    | some q => simp [ih q]

theorem c2Inv_callbackTick (K : List (Option PyStr)) (bse wd now : ℚ)
    (p : KeyPress × Dispatcher) (hinv : c2Inv K bse wd p) (ha : p.1.active = true) :
    c2Inv K bse wd (KeyPress.callbackTick p.1 p.2 now) := by
  obtain ⟨h1, h2, h3, h4, h5, h6, h7, h8⟩ := hinv
  obtain ⟨g1, g2, g3, g4, g5, g6, g7, g8, g9⟩ := preTimeout_fields p.1 p.2
  rw [callbackTick_eq]
  rcases timeoutStep_or (KeyPress.preTimeout p.1 p.2) (KeyPress.subscribeStep p.1 p.2).2 now with h | h
  · rw [h]
    exact ⟨g1.trans h1, g2.trans h2, g3.trans h3, g4.trans h4, g5.trans h5,
      g6.trans h6, g7.trans h7, Or.inl (g8.trans ha)⟩
  · rw [h]
    have hact : (KeyPress.preTimeout p.1 p.2).active = true := g8.trans ha
    refine ⟨(leave_pressed _ _).trans (g1.trans h1),
      (leave_press_time _ _).trans (g2.trans h2),
      (leave_correct _ _).trans (g3.trans h3),
      (leave_rt _ _).trans (g4.trans h4),
      (leave_keys _ _).trans (g5.trans h5),
      (leave_wait_duration _ _).trans (g6.trans h6),
      (leave_effBase _ _).trans (g7.trans h7),
      Or.inr (leave_finished_of_active _ _ hact)⟩

theorem c2Inv_step (K : List (Option PyStr)) (bse wd : ℚ) (p : KeyPress × Dispatcher) (e : Ev)
    (hinv : c2Inv K bse wd p)
    (hq : ∀ sym t, e = Ev.key sym t → ¬(none ∈ K ∨ some (pyUpper sym) ∈ K)) :
    ∃ q, step p e = some q ∧ c2Inv K bse wd q := by
  cases e with
  | tick now =>
    by_cases ha : p.1.active = true
    · exact ⟨_, by simp [step, ha], c2Inv_callbackTick K bse wd now p hinv ha⟩
    · refine ⟨p, ?_, hinv⟩
      simp [step, ha]
  | key sym t =>
    by_cases hr : ("KEY_DOWN", p.1.sid) ∈ p.2
    · refine ⟨p, ?_, hinv⟩
      have hm : ¬(none ∈ p.1.keys ∨ some (pyUpper sym) ∈ p.1.keys) := by
        rw [hinv.2.2.2.2.1]
        exact hq sym t rfl
      simp only [step, if_pos hr]
      rw [key_callback_nonmatching p.1 p.2 sym t hm]
    · refine ⟨p, ?_, hinv⟩
      simp [step, hr]

theorem c2Inv_run (K : List (Option PyStr)) (bse wd : ℚ) (evs : List Ev)
    (p : KeyPress × Dispatcher) (hinv : c2Inv K bse wd p)
    (hq : ∀ sym t, Ev.key sym t ∈ evs → ¬(none ∈ K ∨ some (pyUpper sym) ∈ K)) :
    ∃ q, run p evs = some q ∧ c2Inv K bse wd q := by
  induction evs generalizing p with
  | nil => exact ⟨p, rfl, hinv⟩
  | cons e es ih =>
    obtain ⟨q, hstep, hinvq⟩ := c2Inv_step K bse wd p e hinv
      (fun sym t he => hq sym t (he ▸ List.mem_cons_self e es))
    obtain ⟨r, hrun, hinvr⟩ := ih q hinvq (fun sym t hm => hq sym t (List.mem_cons_of_mem e hm))
    exact ⟨r, by simp [run, hstep, hrun], hinvr⟩

theorem c2_final_tick (K : List (Option PyStr)) (bse wd now : ℚ)
    (p : KeyPress × Dispatcher) (hinv : c2Inv K bse wd p) (hnow : bse + wd ≤ now) :
    ∃ q, step p (Ev.tick now) = some q ∧
      q.1.pressed = [] ∧ q.1.press_time = none ∧ q.1.correct = false ∧
      q.1.rt = none ∧ q.1.finished = true := by
  obtain ⟨h1, h2, h3, h4, h5, h6, h7, h8⟩ := hinv
  by_cases ha : p.1.active = true
  · refine ⟨KeyPress.callbackTick p.1 p.2 now, by simp [step, ha], ?_⟩
    obtain ⟨g1, g2, g3, g4, g5, g6, g7, g8, g9⟩ := preTimeout_fields p.1 p.2
    rw [callbackTick_eq]
    have hwd : (KeyPress.preTimeout p.1 p.2).wait_duration = some wd := g6.trans h6
    have hbse : KeyPress.effBase (KeyPress.preTimeout p.1 p.2) = bse := g7.trans h7
    have hact : (KeyPress.preTimeout p.1 p.2).active = true := g8.trans ha
    unfold KeyPress.timeoutStep
    simp only [hwd, hbse]
    rw [if_pos hnow]
    exact ⟨(leave_pressed _ _).trans (g1.trans h1),
      (leave_press_time _ _).trans (g2.trans h2),
      (leave_correct _ _).trans (g3.trans h3),
      (leave_rt _ _).trans (g4.trans h4),
      leave_finished_of_active _ _ hact⟩
  · have hf : p.1.finished = true := by
      rcases h8 with h | h
      · exact absurd h ha
      · exact h
    exact ⟨p, by simp [step, ha], h1, h2, h3, h4, hf⟩

theorem c2Inv_enter (kA cA : KeyArg) (btS u : Option ℚ) (dur t0 : ℚ) (sid : Nat)
    (d : Dispatcher) (hdur : dur ≠ -1) :
    c2Inv (normalizeKeyArg kA) (btS.getD t0) dur
      (KeyPress.enter (KeyPress.init kA cA btS u dur sid) t0, d) := by
  refine ⟨rfl, rfl, rfl, rfl, rfl, ?_, ?_, Or.inl rfl⟩
  · show (if dur = -1 then none else some dur) = some dur
    rw [if_neg hdur]
  · cases btS with
    | none => rfl
    | some b => rfl

theorem c5Inv_step (p : KeyPress × Dispatcher) (e : Ev) (h : c5Inv p) :
    ∃ q, step p e = some q ∧ c5Inv q := by
  cases e with
  | tick now =>
    by_cases ha : p.1.active = true
    · refine ⟨KeyPress.callbackTick p.1 p.2 now, by simp [step, ha], ?_⟩
      intro _
      rw [callbackTick_base_time]
      simp
    · exact ⟨p, by simp [step, ha], h⟩
  | key sym t =>
    by_cases hr : ("KEY_DOWN", p.1.sid) ∈ p.2
    · obtain ⟨bt, hb⟩ := Option.ne_none_iff_exists'.mp (h hr)
      obtain ⟨q, hq⟩ := key_callback_isSome p.1 p.2 sym t bt hb
      refine ⟨q, by simp [step, hr, hq], ?_⟩
      intro _
      rw [key_callback_base_time p.1 p.2 sym t q hq, hb]
      simp
    · exact ⟨p, by simp [step, hr], h⟩

theorem c5Inv_run (evs : List Ev) (p : KeyPress × Dispatcher) (h : c5Inv p) :
    ∃ q, run p evs = some q ∧ c5Inv q := by
  induction evs generalizing p with
  | nil => exact ⟨p, rfl, h⟩
  | cons e es ih =>
    obtain ⟨q, hstep, hq⟩ := c5Inv_step p e h
    obtain ⟨r, hrun, hr⟩ := ih q hq
    exact ⟨r, by simp [run, hstep, hrun], hr⟩

/-- C1: for every key event delivered to an active KeyPress state whose
uppercased key symbol is in the accepted key set, or whose accepted set is
unbounded (contains `None`), the callback records the pressed key symbol,
the event's time as `press_time`, the reaction time `rt` as the event
timestamp minus `base_time`, and sets `correct` to true exactly when the
recorded key is a member of the configured correct-response set. -/
theorem keypress_match_records_response (s : KeyPress) (d : Dispatcher)
    (sym : PyStr) (t : EventTime) (bt : ℚ)
    (ha : s.active = true)
    (hbt : s.base_time = some bt)
    (hc : s.correct = false)
    (hm : none ∈ s.keys ∨ some (pyUpper sym) ∈ s.keys) :
    ∃ q, KeyPress.key_callback s d sym t = some q ∧
      q.1.pressed = pyUpper sym ∧
      q.1.press_time = some t ∧
      q.1.rt = some (t.time - bt) ∧
      (q.1.correct = true ↔ some (pyUpper sym) ∈ s.correct_resp) := by
  rw [key_callback_match s d sym t bt hbt hm]
  refine ⟨_, rfl, ?_⟩
  by_cases hcr : some (pyUpper sym) ∈ s.correct_resp
  · rw [if_pos hcr]
    simp only [leave_pressed, leave_press_time, leave_rt, leave_correct]
    simp [hcr]
  · rw [if_neg hcr]
    simp only [leave_pressed, leave_press_time, leave_rt, leave_correct]
    simp [hc, hcr]

/-- Witness for C1: the spec scenario; accepted keys `J`/`K`, correct
response `K`, event `k` at time 42/100 with base time 0. -/
theorem keypress_match_records_response_witness :
    ∃ q, KeyPress.key_callback jkSample [] ['k'] ⟨42/100⟩ = some q ∧
      q.1.pressed = pyUpper ['k'] ∧
      q.1.press_time = some ⟨42/100⟩ ∧
      q.1.rt = some ((42/100 : ℚ) - 0) ∧
      (q.1.correct = true ↔ some (pyUpper ['k']) ∈ jkSample.correct_resp) :=
  keypress_match_records_response jkSample [] ['k'] ⟨42/100⟩ 0 rfl rfl rfl (by decide)

/-- C2: for every activation of a KeyPress state with a duration bound in
which no qualifying key event occurs, once a poll tick at or past the
deadline arrives the state exits with all response fields at their
no-response defaults: `pressed` empty, `press_time` `None`, `correct`
false, `rt` `None`. -/
theorem keypress_no_response_defaults_on_timeout (kA cA : KeyArg)
    (btS u : Option ℚ) (dur t0 now : ℚ) (sid : Nat)
    (d : Dispatcher) (evs : List Ev)
    (hdur : dur ≠ -1)
    (hnoq : ∀ sym t, Ev.key sym t ∈ evs →
      ¬(none ∈ normalizeKeyArg kA ∨ some (pyUpper sym) ∈ normalizeKeyArg kA))
    (hnow : btS.getD t0 + dur ≤ now) :
    ∃ q, run (KeyPress.enter (KeyPress.init kA cA btS u dur sid) t0, d)
        (evs ++ [Ev.tick now]) = some q ∧
      q.1.pressed = [] ∧ q.1.press_time = none ∧ q.1.correct = false ∧
      q.1.rt = none ∧ q.1.finished = true := by
  obtain ⟨q, hrun, hinvq⟩ := c2Inv_run (normalizeKeyArg kA) (btS.getD t0) dur evs
    (KeyPress.enter (KeyPress.init kA cA btS u dur sid) t0, d)
    (c2Inv_enter kA cA btS u dur t0 sid d hdur) hnoq
  obtain ⟨r, hstep, hr⟩ := c2_final_tick (normalizeKeyArg kA) (btS.getD t0) dur now q hinvq hnow
  refine ⟨r, ?_, hr⟩
  rw [run_append, hrun]
  simp [run, hstep]

/-- Witness for C2: keys `J`/`K`, duration 2, entered at 0; a `Q` key event
at time 1 and the timeout tick at time 5. -/
theorem keypress_no_response_defaults_on_timeout_witness :
    ∃ q, run (KeyPress.enter (KeyPress.init (.pylist [some ['J'], some ['K']])
        (.scalar (some ['K'])) none none 2 0) 0, [])
        ([Ev.key ['Q'] ⟨1⟩] ++ [Ev.tick 5]) = some q ∧
      q.1.pressed = [] ∧ q.1.press_time = none ∧ q.1.correct = false ∧
      q.1.rt = none ∧ q.1.finished = true :=
  keypress_no_response_defaults_on_timeout (.pylist [some ['J'], some ['K']])
    (.scalar (some ['K'])) none none 2 0 5 0 [] [Ev.key ['Q'] ⟨1⟩]
    (by norm_num)
    (by
      intro sym t hmem
      simp only [List.mem_singleton, Ev.key.injEq] at hmem
      obtain ⟨rfl, -⟩ := hmem
      decide)
    (by show (0 : ℚ) + 2 ≤ 5; norm_num)

/-- Counterexample to C3 as stated: a state entered at time 10 with an
explicit `base_time` source of 5 and duration 3 is terminated by a poll
tick at time 9, although `now = 9` is strictly before
`start_time + duration = 13`. -/
theorem keypress_tick_exit_before_start_plus_duration :
    (step (deadlineSample, ([] : Dispatcher)) (.tick 9)).map (fun q => q.1.finished) =
      some true ∧ (9 : ℚ) < 10 + 3 := by
  constructor
  · norm_num [step, deadlineSample, KeyPress.callbackTick, KeyPress.subscribeStep,
      KeyPress.fillBase, KeyPress.timeoutStep, KeyPress.effBase, KeyPress.leave,
      KeyPress.leaveHook, KeyPress.enter, KeyPress.enterHook, KeyPress.init,
      add_callback, remove_callback, pyTruthy, normalizeKeyArg]
  · norm_num

/-- C3 amended: a poll tick of an active, unfinished KeyPress state forces
`leave()` exactly when a duration bound exists and
`now ≥ base_time + duration` — where `base_time` is the externally supplied
base-time source if given and the state's start (`state_time`) otherwise —
or when the `until` argument evaluates truthy (Python truthiness, e.g. any
nonzero number), not when `now ≥ until`. -/
theorem keypress_tick_exit_iff_effbase_deadline_or_until (s : KeyPress)
    (d : Dispatcher) (now : ℚ)
    (ha : s.active = true) (hf : s.finished = false) :
    ((KeyPress.callbackTick s d now).1.finished = true ↔
      ((∃ wd, s.wait_duration = some wd ∧ s.effBase + wd ≤ now) ∨
        pyTruthy s.wait_until = true)) := by
  rw [callbackTick_eq]
  have h1 := timeoutStep_finished_iff (KeyPress.preTimeout s d)
    (KeyPress.subscribeStep s d).2 now
    ((preTimeout_fields s d).2.2.2.2.2.2.2.1.trans ha)
    ((preTimeout_fields s d).2.2.2.2.2.2.2.2.trans hf)
  rw [h1, (preTimeout_fields s d).2.2.2.2.2.1,
    (preTimeout_fields s d).2.2.2.2.2.2.1]
  unfold KeyPress.preTimeout
  rw [fillBase_wait_until, subscribeStep_wait_until]

/-- Witness for C3 amended: the counterexample state, at tick time 9. -/
theorem keypress_tick_exit_iff_effbase_deadline_or_until_witness :
    ((KeyPress.callbackTick deadlineSample [] 9).1.finished = true ↔
      ((∃ wd, deadlineSample.wait_duration = some wd ∧
          deadlineSample.effBase + wd ≤ 9) ∨
        pyTruthy deadlineSample.wait_until = true)) :=
  keypress_tick_exit_iff_effbase_deadline_or_until deadlineSample [] 9 rfl rfl

/-- C4: after the first accepted key event is recorded, the state
immediately transitions to Finished via `leave()`, its KEY_DOWN callback is
unregistered, and no subsequent key event on the same activation mutates
anything: delivery to the finished configuration is the identity. -/
theorem keypress_first_accept_finishes_and_unregisters (s : KeyPress)
    (d : Dispatcher) (sym : PyStr) (t : EventTime) (bt : ℚ)
    (ha : s.active = true)
    (hbt : s.base_time = some bt)
    (hm : none ∈ s.keys ∨ some (pyUpper sym) ∈ s.keys) :
    ∃ q, KeyPress.key_callback s d sym t = some q ∧
      q.1.finished = true ∧ q.1.active = false ∧
      ("KEY_DOWN", q.1.sid) ∉ q.2 ∧
      (∀ sym2 t2, step q (Ev.key sym2 t2) = some q) ∧
      q.1.pressed = pyUpper sym := by
  rw [key_callback_match s d sym t bt hbt hm]
  refine ⟨_, rfl, ?_⟩
  set s3 := (if some (pyUpper sym) ∈ s.correct_resp then
          { s with pressed := pyUpper sym, press_time := some t,
                   rt := some (t.time - bt), correct := true }
        else
          { s with pressed := pyUpper sym, press_time := some t,
                   rt := some (t.time - bt) }) with hs3
  have ha3 : s3.active = true := by
    rw [hs3]; split <;> exact ha
  rw [leave_of_active s3 d ha3]
  refine ⟨rfl, rfl, ?_, ?_, ?_⟩
  · simpa using not_mem_remove_callback d "KEY_DOWN" s3.sid
  · intro sym2 t2
    simp only [step]
    rw [if_neg]
    simpa using not_mem_remove_callback d "KEY_DOWN" s3.sid
  · rw [hs3]; split <;> rfl

/-- Witness for C4: the scenario state accepts event `k` and finishes. -/
theorem keypress_first_accept_finishes_and_unregisters_witness :
    ∃ q, KeyPress.key_callback jkSample [("KEY_DOWN", 0)] ['k'] ⟨42/100⟩ = some q ∧
      q.1.finished = true ∧ q.1.active = false ∧
      ("KEY_DOWN", q.1.sid) ∉ q.2 ∧
      (∀ sym2 t2, step q (Ev.key sym2 t2) = some q) ∧
      q.1.pressed = pyUpper ['k'] :=
  keypress_first_accept_finishes_and_unregisters jkSample [("KEY_DOWN", 0)]
    ['k'] ⟨42/100⟩ 0 rfl rfl (by decide)

/-- C5: starting from a freshly entered KeyPress state whose callback is not
yet registered, no sequence of poll ticks and key events makes the key
callback's reaction-time computation ill-defined: the run never raises, and
in every reachable configuration in which the callback is registered,
`base_time` is a number (not `None`), because each poll tick fills
`base_time` in the same tick that performs the subscription. -/
theorem keypress_registered_implies_base_time_set (kA cA : KeyArg)
    (btS u : Option ℚ) (dur t0 : ℚ) (sid : Nat)
    (d0 : Dispatcher) (evs : List Ev)
    (hd : ("KEY_DOWN", sid) ∉ d0) :
    ∃ q, run (KeyPress.enter (KeyPress.init kA cA btS u dur sid) t0, d0) evs = some q ∧
      (("KEY_DOWN", q.1.sid) ∈ q.2 → q.1.base_time ≠ none) :=
  c5Inv_run evs _ (fun hmem => absurd hmem hd)

/-- Witness for C5: the scenario configuration with a tick and a key
event. -/
theorem keypress_registered_implies_base_time_set_witness :
    ∃ q, run (KeyPress.enter (KeyPress.init (.pylist [some ['J'], some ['K']])
        (.scalar (some ['K'])) none none (-1) 0) 0, [])
        [Ev.tick 0, Ev.key ['K'] ⟨1⟩] = some q ∧
      (("KEY_DOWN", q.1.sid) ∈ q.2 → q.1.base_time ≠ none) :=
  keypress_registered_implies_base_time_set (.pylist [some ['J'], some ['K']])
    (.scalar (some ['K'])) none none (-1) 0 0 [] [Ev.tick 0, Ev.key ['K'] ⟨1⟩]
    (by simp)

/-- C6: exiting an active KeyPress state through `leave()` — the path taken
by an accepted key press, a duration/until timeout, and a parent-forced
leave alike — removes its KEY_DOWN callback registration from the
dispatcher and clears `waiting`, so no stale callback owned by the state
remains registered after exit. -/
theorem keypress_exit_removes_key_down_registration (s : KeyPress)
    (d : Dispatcher) (ha : s.active = true) :
    ("KEY_DOWN", s.sid) ∉ (KeyPress.leave s d).2 ∧
      (KeyPress.leave s d).1.waiting = false ∧
      (KeyPress.leave s d).1.finished = true := by
  rw [leave_of_active s d ha]
  exact ⟨not_mem_remove_callback d _ _, rfl, rfl⟩

/-- Witness for C6: leaving the scenario state with its callback
registered. -/
theorem keypress_exit_removes_key_down_registration_witness :
    ("KEY_DOWN", jkSample.sid) ∉ (KeyPress.leave jkSample [("KEY_DOWN", 0)]).2 ∧
      (KeyPress.leave jkSample [("KEY_DOWN", 0)]).1.waiting = false ∧
      (KeyPress.leave jkSample [("KEY_DOWN", 0)]).1.finished = true :=
  keypress_exit_removes_key_down_registration jkSample [("KEY_DOWN", 0)] rfl

/-- C7: a poll tick evaluates its time-based exit condition only after the
subscription block: the tick is exactly the timeout step applied to the
state produced by the subscription block and `base_time` fill, that state
has `waiting` true, and the callback registration is in the dispatcher the
timeout step receives (assuming `waiting` faithfully tracks an existing
registration). -/
theorem keypress_subscribes_before_timeout_check (s : KeyPress)
    (d : Dispatcher) (now : ℚ)
    (hw : s.waiting = true → ("KEY_DOWN", s.sid) ∈ d) :
    KeyPress.callbackTick s d now =
      KeyPress.timeoutStep (KeyPress.preTimeout s d)
        (KeyPress.subscribeStep s d).2 now ∧
    (KeyPress.preTimeout s d).waiting = true ∧
    ("KEY_DOWN", s.sid) ∈ (KeyPress.subscribeStep s d).2 := by
  refine ⟨rfl, ?_, ?_⟩
  · unfold KeyPress.preTimeout
    rw [fillBase_eq, subscribeStep_fst]
    by_cases h : s.waiting = false
    · rw [if_pos h]
    · rw [if_neg h]
      show s.waiting = true
      exact (Bool.not_eq_false _).mp h
  · unfold KeyPress.subscribeStep
    by_cases h : s.waiting = false
    · rw [if_pos h]
      simp [add_callback]
    · rw [if_neg h]
      exact hw ((Bool.not_eq_false _).mp h)

/-- Witness for C7: the scenario state, not yet waiting, with an empty
dispatcher. -/
theorem keypress_subscribes_before_timeout_check_witness :
    KeyPress.callbackTick jkSample [] 0 =
      KeyPress.timeoutStep (KeyPress.preTimeout jkSample [])
        (KeyPress.subscribeStep jkSample []).2 0 ∧
    (KeyPress.preTimeout jkSample []).waiting = true ∧
    ("KEY_DOWN", jkSample.sid) ∈ (KeyPress.subscribeStep jkSample []).2 :=
  keypress_subscribes_before_timeout_check jkSample [] 0
    (fun h => absurd h (by decide))

/-- C8: a key event whose uppercased symbol is not in the accepted set (and
the set is not unbounded) is ignored: the callback returns the state and
dispatcher completely unchanged, so `pressed`, `press_time`, `correct` and
`rt` keep their values, `leave()` is not called, and the state stays
active. -/
theorem keypress_nonmatching_event_ignored (s : KeyPress) (d : Dispatcher)
    (sym : PyStr) (t : EventTime)
    (hm : ¬ (none ∈ s.keys ∨ some (pyUpper sym) ∈ s.keys)) :
    KeyPress.key_callback s d sym t = some (s, d) :=
  key_callback_nonmatching s d sym t hm

/-- Witness for C8: event `Q` against accepted keys `J`/`K` is ignored. -/
theorem keypress_nonmatching_event_ignored_witness :
    KeyPress.key_callback jkSample [] ['Q'] ⟨1⟩ = some (jkSample, []) :=
  keypress_nonmatching_event_ignored jkSample [] ['Q'] ⟨1⟩ (by decide)

/-- C9: a non-list `keys` or `correct_resp` argument (including the default
`None`) is wrapped into a single-element list; in particular `keys=None`
yields the accepted set `[None]`, under which every key event matches. -/
theorem keypress_nonlist_args_wrapped (k c : Option PyStr) (bt u : Option ℚ)
    (dur : ℚ) (sid : Nat) :
    (KeyPress.init (.scalar k) (.scalar c) bt u dur sid).keys = [k] ∧
    (KeyPress.init (.scalar k) (.scalar c) bt u dur sid).correct_resp = [c] ∧
    ∀ sym : PyStr,
      none ∈ (KeyPress.init (.scalar none) (.scalar c) bt u dur sid).keys ∨
        some (pyUpper sym) ∈ (KeyPress.init (.scalar none) (.scalar c) bt u dur sid).keys := by
  refine ⟨rfl, rfl, fun sym => Or.inl ?_⟩
  exact List.mem_singleton.mpr rfl

/-- C10: matching is performed on the uppercased key symbol (the callback's
result depends on the symbol only through `pyUpper`), an entry containing
an ASCII lowercase letter never equals any event's uppercased symbol — so a
lowercase entry in `keys` or `correct_resp` never matches — and any newly
recorded `pressed` value contains no lowercase letter. -/
theorem keypress_matching_uses_uppercased_symbol (s : KeyPress)
    (d : Dispatcher) (sym : PyStr) (t : EventTime) :
    (KeyPress.key_callback s d sym t = KeyPress.key_callback s d (pyUpper sym) t) ∧
    (∀ ks : PyStr, (∃ c ∈ ks, isLowerAscii c = true) → pyUpper sym ≠ ks) ∧
    (∀ q, KeyPress.key_callback s d sym t = some q →
      q.1.pressed = s.pressed ∨ ∀ c ∈ q.1.pressed, isLowerAscii c = false) := by
  refine ⟨?_, fun ks h => pyUpper_ne_of_lower h, ?_⟩
  · simp only [KeyPress.key_callback, pyUpper_pyUpper]
  · intro q hq
    unfold KeyPress.key_callback at hq
    by_cases hm : none ∈ s.keys ∨ some (pyUpper sym) ∈ s.keys
    · rw [if_pos hm] at hq
      cases hb : s.base_time with
      | none =>
        simp only [hb] at hq
        exact absurd hq (by simp)
      | some bt =>
        simp only [hb] at hq
        rw [Option.some_inj] at hq
        subst hq
        right
        intro c hc
        rw [leave_pressed] at hc
        have hc2 : c ∈ pyUpper sym := by
          revert hc
          split <;> exact fun hc => hc
        exact isLowerAscii_mem_pyUpper hc2
    · rw [if_neg hm] at hq
      rw [Option.some_inj] at hq
      subst hq
      exact Or.inl rfl

/-- Witness for C10: instantiated at the scenario state with event `q` and
the lowercase entry `k`. -/
theorem keypress_matching_uses_uppercased_symbol_witness :
    pyUpper ['q'] ≠ ['k'] ∧
    KeyPress.key_callback jkSample [] ['q'] ⟨1⟩ =
      KeyPress.key_callback jkSample [] (pyUpper ['q']) ⟨1⟩ := by
  have h := keypress_matching_uses_uppercased_symbol jkSample [] ['q'] ⟨1⟩
  exact ⟨h.2.1 ['k'] ⟨'k', by decide, by decide⟩, h.1⟩

end Smile
